import Mathlib

/-!
Verification of the peephole instruction simplifier
(`lib/SILPasses/Utils/SimplifyInstruction.cpp`).

The IR is shallowly embedded: a `Value` is either an opaque function
argument or the (single) result of its defining instruction, following the
single-assignment discipline, so the defining instruction of an operand is
recovered by pattern matching on the operand itself (the embedding of the
`dyn_cast` idiom).  Types are opaque identities compared only for equality;
the two builtin type families the code mentions (`Builtin.Int<w>` from
`visitIntegerLiteralInst`, and the raw-pointer / object-pointer types of
the conversion instructions) get dedicated constructors.  Basic blocks are
identified by numbers; a `CFG` gives each block its predecessor list and
its terminator, which is all `getSinglePredecessor` / `getTerminator`
expose to the simplifier.

The unguarded element accesses of `visitTupleExtractInst`
(`getElements()[getFieldNo()]`) and `visitStructExtractInst`
(`getOperandForField(...)->get()`) are undefined behaviour in the C++ when
the index is outside the aggregate's arity; the embedding makes that
explicit by returning `Except.error SimpErr.outOfBounds` on exactly those
accesses, and `.ok` on every path the C++ defines.
-/

/-- Opaque, equality-comparable type identities.  `builtinInt w` embeds
`Builtin.Int<w>` (`SILType::getBuiltinIntegerType`), `rawPointer` the
`Builtin.RawPointer` type produced by `address_to_pointer` and
`ref_to_raw_pointer`, `objectPointer` the `Builtin.ObjectPointer` type
produced by `ref_to_object_pointer`; `named` covers every other type. -/
inductive Ty where
  | builtinInt (width : Nat)
  | rawPointer
  | objectPointer
  | named (id : Nat)
deriving DecidableEq, Repr

/-- Identity of an enum case (`EnumElementDecl`). -/
abbrev Tag := Nat

/-- The cast kind carried by `UnconditionalCheckedCastInst`; only
`Downcast` is inspected by the simplifier, all other kinds are collapsed
into `otherCast`. -/
inductive CheckedCastKind where
  | downcast
  | otherCast (k : Nat)
deriving DecidableEq, Repr

/-- A SIL value together with its defining instruction: `arg` is an opaque
block/function argument, every other constructor is the result of the
corresponding instruction.  Each constructor carries the instruction's
result type last.  `other` stands for the instruction kinds the visitor
does not name (they all fall to `visitSILInstruction`). -/
inductive Value where
  | arg (id : Nat) (ty : Ty)
  | tuple (elements : List Value) (ty : Ty)
  | struct (operands : List Value) (ty : Ty)
  | enum (element : Tag) (operand : Option Value) (ty : Ty)
  | tupleExtract (operand : Value) (fieldNo : Nat) (ty : Ty)
  | structExtract (operand : Value) (fieldNo : Nat) (ty : Ty)
  | integerLiteral (value : Nat) (ty : Ty)
  | addressToPointer (operand : Value) (ty : Ty)
  | pointerToAddress (operand : Value) (ty : Ty)
  | refToRawPointer (operand : Value) (ty : Ty)
  | rawPointerToRef (operand : Value) (ty : Ty)
  | refToObjectPointer (operand : Value) (ty : Ty)
  | objectPointerToRef (operand : Value) (ty : Ty)
  | upcast (operand : Value) (ty : Ty)
  | unconditionalCheckedCast (kind : CheckedCastKind) (operand : Value) (ty : Ty)
  | other (opcode : Nat) (operands : List Value) (ty : Ty)

mutual

/-- Equality test on values: in the single-assignment embedding two equal
trees denote the same value, so this is the `SILValue` identity
comparison (`operator!=`) the C++ performs. -/
def Value.beq : Value → Value → Bool
  | .arg i t, b =>
    match b with
    | .arg j u => i == j && t == u
    | _ => false
  | .tuple es t, b =>
    match b with
    | .tuple fs u => Value.beqList es fs && t == u
    | _ => false
  | .struct es t, b =>
    match b with
    | .struct fs u => Value.beqList es fs && t == u
    | _ => false
  | .enum e o t, b =>
    match b with
    | .enum f p u => e == f && Value.beqOpt o p && t == u
    | _ => false
  | .tupleExtract a n t, b =>
    match b with
    | .tupleExtract c m u => Value.beq a c && n == m && t == u
    | _ => false
  | .structExtract a n t, b =>
    match b with
    | .structExtract c m u => Value.beq a c && n == m && t == u
    | _ => false
  | .integerLiteral v t, b =>
    match b with
    | .integerLiteral w u => v == w && t == u
    | _ => false
  | .addressToPointer a t, b =>
    match b with
    | .addressToPointer c u => Value.beq a c && t == u
    | _ => false
  | .pointerToAddress a t, b =>
    match b with
    | .pointerToAddress c u => Value.beq a c && t == u
    | _ => false
  | .refToRawPointer a t, b =>
    match b with
    | .refToRawPointer c u => Value.beq a c && t == u
    | _ => false
  | .rawPointerToRef a t, b =>
    match b with
    | .rawPointerToRef c u => Value.beq a c && t == u
    | _ => false
  | .refToObjectPointer a t, b =>
    match b with
    | .refToObjectPointer c u => Value.beq a c && t == u
    | _ => false
  | .objectPointerToRef a t, b =>
    match b with
    | .objectPointerToRef c u => Value.beq a c && t == u
    | _ => false
  | .upcast a t, b =>
    match b with
    | .upcast c u => Value.beq a c && t == u
    | _ => false
  | .unconditionalCheckedCast k a t, b =>
    match b with
    | .unconditionalCheckedCast l c u => k == l && Value.beq a c && t == u
    | _ => false
  | .other o es t, b =>
    match b with
    | .other p fs u => o == p && Value.beqList es fs && t == u
    | _ => false

/-- Pointwise `Value.beq` on operand lists. -/
def Value.beqList : List Value → List Value → Bool
  | [], [] => true
  | a :: as, b :: bs => Value.beq a b && Value.beqList as bs
  | _, _ => false

/-- `Value.beq` lifted to the optional payload of an `enum`. -/
def Value.beqOpt : Option Value → Option Value → Bool
  | none, none => true
  | some a, some b => Value.beq a b
  | _, _ => false

end

/-- `SILValue::getType()`: the type a value carries. -/
def Value.typeOf : Value → Ty
  | .arg _ ty => ty
  | .tuple _ ty => ty
  | .struct _ ty => ty
  | .enum _ _ ty => ty
  | .tupleExtract _ _ ty => ty
  | .structExtract _ _ ty => ty
  | .integerLiteral _ ty => ty
  | .addressToPointer _ ty => ty
  | .pointerToAddress _ ty => ty
  | .refToRawPointer _ ty => ty
  | .rawPointerToRef _ ty => ty
  | .refToObjectPointer _ ty => ty
  | .objectPointerToRef _ ty => ty
  | .upcast _ ty => ty
  | .unconditionalCheckedCast _ _ ty => ty
  | .other _ _ ty => ty

/-- `dyn_cast<StructExtractInst>`: when the value is the result of a
`struct_extract`, its source operand and field number. -/
def Value.asStructExtract : Value → Option (Value × Nat)
  | .structExtract operand fieldNo _ => some (operand, fieldNo)
  | _ => none

/-- Terminators the simplifier inspects: `CondBranchInst` with its
condition and true/false targets, `SwitchEnumInst` with its subject and
its case-destination map (`getCaseDestination`); every other terminator is
`otherTerm`. -/
inductive TermInst where
  | condBranch (cond : Value) (trueBB falseBB : Nat)
  | switchEnum (subject : Value) (caseTarget : Tag → Nat)
  | otherTerm (id : Nat)

/-- The read-only view of the control-flow graph the simplifier consumes:
each block's predecessor list and terminator. -/
structure CFG where
  preds : Nat → List Nat
  term : Nat → TermInst

/-- `SILBasicBlock::getSinglePredecessor`: the predecessor when there is
exactly one, otherwise null. -/
def getSinglePredecessor (cfg : CFG) (b : Nat) : Option Nat :=
  match cfg.preds b with
  | [p] => some p
  | _ => none

/-- The contract violation the C++ leaves undefined: an element access
outside the aggregate's arity. -/
inductive SimpErr where
  | outOfBounds
deriving DecidableEq, Repr

/-- `InstSimplifier::visitStructInst`.  Note the loop body reads
`SI->getOperand(0)` on every iteration, exactly as the C++ does. -/
def visitStructInst (operands : List Value) (ty : Ty) : Option Value :=
  match operands with
  | [] => none
  | op0 :: _ =>
    match op0.asStructExtract with
    | none => none
    | some (ex0Src, _) =>
      if ty = ex0Src.typeOf then
        if (List.range operands.length).all (fun i =>
              match op0.asStructExtract with
              | none => false
              | some (exSrc, exField) =>
                Value.beq ex0Src exSrc && decide (exField = i)) then
          some ex0Src
        else
          none
      else
        none

/-- `InstSimplifier::visitTupleExtractInst`:
`tuple_extract(tuple(x, y), 0) -> x`, with the unguarded
`getElements()[getFieldNo()]` made an explicit error when out of range. -/
def visitTupleExtractInst (operand : Value) (fieldNo : Nat) :
    Except SimpErr (Option Value) :=
  match operand with
  | .tuple elements _ =>
    match elements.get? fieldNo with
    | some e => .ok (some e)
    | none => .error .outOfBounds
  | _ => .ok none

/-- `InstSimplifier::visitStructExtractInst`:
`struct_extract(struct(x, y), x) -> x`.  Field identities are embedded by
their ordinal, so `getOperandForField` is a positional lookup; a field
with no bound operand is the explicit error. -/
def visitStructExtractInst (operand : Value) (fieldNo : Nat) :
    Except SimpErr (Option Value) :=
  match operand with
  | .struct structOperands _ =>
    match structOperands.get? fieldNo with
    | some v => .ok (some v)
    | none => .error .outOfBounds
  | _ => .ok none

/-- `InstSimplifier::visitIntegerLiteralInst`: a `Builtin.Int1` literal in
the matching target block of its single predecessor's `cond_br` becomes
the branch condition.  `value ≠ 0` is `APInt::getBoolValue`. -/
def visitIntegerLiteralInst (cfg : CFG) (parent : Nat) (value : Nat)
    (ty : Ty) : Option Value :=
  if ty = Ty.builtinInt 1 then
    match getSinglePredecessor cfg parent with
    | none => none
    | some pred =>
      match cfg.term pred with
      | .condBranch cond trueBB falseBB =>
        if parent = (if value ≠ 0 then trueBB else falseBB) then
          some cond
        else
          none
      | _ => none
  else
    none

/-- `InstSimplifier::visitEnumInst`: a payload-free `enum` in the matching
case destination of its single predecessor's `switch_enum` becomes the
switched-on subject. -/
def visitEnumInst (cfg : CFG) (parent : Nat) (element : Tag)
    (operand : Option Value) (ty : Ty) : Option Value :=
  if operand.isSome then
    none
  else
    match getSinglePredecessor cfg parent with
    | none => none
    | some pred =>
      match cfg.term pred with
      | .switchEnum subject caseTarget =>
        if ty = subject.typeOf then
          if parent = caseTarget element then some subject else none
        else
          none
      | _ => none

/-- `InstSimplifier::visitAddressToPointerInst`:
`(address_to_pointer (pointer_to_address x)) -> x`.  The C++ compares
`PTAI->getType()` with `ATPI->getOperand().getType()`, and the operand of
the `address_to_pointer` is the result of the `pointer_to_address`, so the
comparison is between a value's type and itself. -/
def visitAddressToPointerInst (operand : Value) : Option Value :=
  match operand with
  | .pointerToAddress x ptaiTy =>
    if ptaiTy = (Value.pointerToAddress x ptaiTy).typeOf then some x else none
  | _ => none

/-- `InstSimplifier::visitPointerToAddressInst`:
`(pointer_to_address (address_to_pointer x)) -> x` when
`ATPI->getOperand().getType() == PTAI->getType()`. -/
def visitPointerToAddressInst (operand : Value) (ty : Ty) : Option Value :=
  match operand with
  | .addressToPointer x _ =>
    if x.typeOf = ty then some x else none
  | _ => none

/-- `InstSimplifier::visitRefToRawPointerInst`:
`(ref_to_raw_pointer (raw_pointer_to_ref x)) -> x`, with no type check. -/
def visitRefToRawPointerInst (operand : Value) : Option Value :=
  match operand with
  | .rawPointerToRef x _ => some x
  | _ => none

/-- `InstSimplifier::visitUnconditionalCheckedCastInst`:
`(UCCI downcast (upcast x #type1 to #type2) #type2 to #type1) -> x`.  The
first conjunct compares the cast's operand type with the upcast's result
type; the operand is the upcast's result, so that conjunct compares a
value's type with itself. -/
def visitUnconditionalCheckedCastInst (kind : CheckedCastKind)
    (operand : Value) (ty : Ty) : Option Value :=
  if kind = CheckedCastKind.downcast then
    match operand with
    | .upcast x upTy =>
      if (Value.upcast x upTy).typeOf = upTy ∧ ty = x.typeOf then
        some x
      else
        none
    | _ => none
  else
    none

/-- `InstSimplifier::visitObjectPointerToRefInst`:
`(object-pointer-to-ref-inst (ref-to-object-pointer-inst x) typeof(x)) -> x`
when `RTOPI->getOperand().getType() == OPRI->getType()`. -/
def visitObjectPointerToRefInst (operand : Value) (ty : Ty) : Option Value :=
  match operand with
  | .refToObjectPointer x _ =>
    if x.typeOf = ty then some x else none
  | _ => none

/-- `swift::simplifyInstruction`, the visitor dispatch: each of the ten
handled instruction kinds goes to its rule, everything else falls to
`visitSILInstruction`, which returns the null value (here `.ok none`).
The instruction's parent block (`getParent()`) is passed alongside. -/
def simplifyInstruction (cfg : CFG) (parent : Nat) (I : Value) :
    Except SimpErr (Option Value) :=
  match I with
  | .tupleExtract operand fieldNo _ => visitTupleExtractInst operand fieldNo
  | .structExtract operand fieldNo _ => visitStructExtractInst operand fieldNo
  | .integerLiteral value ty => .ok (visitIntegerLiteralInst cfg parent value ty)
  | .enum element operand ty => .ok (visitEnumInst cfg parent element operand ty)
  | .addressToPointer operand _ => .ok (visitAddressToPointerInst operand)
  | .pointerToAddress operand ty => .ok (visitPointerToAddressInst operand ty)
  | .refToRawPointer operand _ => .ok (visitRefToRawPointerInst operand)
  | .unconditionalCheckedCast kind operand ty =>
    .ok (visitUnconditionalCheckedCastInst kind operand ty)
  | .objectPointerToRef operand ty =>
    .ok (visitObjectPointerToRefInst operand ty)
  | .struct operands ty => .ok (visitStructInst operands ty)
  | _ => .ok none

/-- Modelled from the spec: the well-formed-IR precondition.  The spec
(§4.1) says the input is "any Instruction reachable in a well-formed IR
(precondition; not re-validated here)" and (§7) that a malformed-IR
precondition violation — "an operand index outside an aggregate's arity"
— is a caller bug; the IR builder and verifier enforcing this are not part
of the source file under verification.  The constraints recorded here are
the typing facts such an IR guarantees and which the simplifier relies on:
an aggregate extractor's index lies within its source aggregate's arity
and its result type is the extracted element's type; `address_to_pointer`
and `ref_to_raw_pointer` produce `Builtin.RawPointer` and
`pointer_to_address` and `raw_pointer_to_ref` consume it;
`ref_to_object_pointer` produces `Builtin.ObjectPointer` and
`object_pointer_to_ref` consumes it; all operands are recursively
well-formed. -/
inductive WellFormed : Value → Prop where
  | arg (id : Nat) (ty : Ty) : WellFormed (.arg id ty)
  | tuple (es : List Value) (ty : Ty) :
      (∀ v ∈ es, WellFormed v) → WellFormed (.tuple es ty)
  | struct (ops : List Value) (ty : Ty) :
      (∀ v ∈ ops, WellFormed v) → WellFormed (.struct ops ty)
  | enum (e : Tag) (operand : Option Value) (ty : Ty) :
      (∀ v ∈ operand, WellFormed v) → WellFormed (.enum e operand ty)
  | tupleExtract (operand : Value) (fieldNo : Nat) (ty : Ty) :
      WellFormed operand →
      (∀ es t, operand = .tuple es t →
        ∃ h : fieldNo < es.length, ty = (es.get ⟨fieldNo, h⟩).typeOf) →
      WellFormed (.tupleExtract operand fieldNo ty)
  | structExtract (operand : Value) (fieldNo : Nat) (ty : Ty) :
      WellFormed operand →
      (∀ ops t, operand = .struct ops t →
        ∃ h : fieldNo < ops.length, ty = (ops.get ⟨fieldNo, h⟩).typeOf) →
      WellFormed (.structExtract operand fieldNo ty)
  | integerLiteral (v : Nat) (ty : Ty) : WellFormed (.integerLiteral v ty)
  | addressToPointer (operand : Value) (ty : Ty) :
      WellFormed operand → ty = Ty.rawPointer →
      WellFormed (.addressToPointer operand ty)
  | pointerToAddress (operand : Value) (ty : Ty) :
      WellFormed operand → operand.typeOf = Ty.rawPointer →
      WellFormed (.pointerToAddress operand ty)
  | refToRawPointer (operand : Value) (ty : Ty) :
      WellFormed operand → ty = Ty.rawPointer →
      WellFormed (.refToRawPointer operand ty)
  | rawPointerToRef (operand : Value) (ty : Ty) :
      WellFormed operand → operand.typeOf = Ty.rawPointer →
      WellFormed (.rawPointerToRef operand ty)
  | refToObjectPointer (operand : Value) (ty : Ty) :
      WellFormed operand → ty = Ty.objectPointer →
      WellFormed (.refToObjectPointer operand ty)
  | objectPointerToRef (operand : Value) (ty : Ty) :
      WellFormed operand → operand.typeOf = Ty.objectPointer →
      WellFormed (.objectPointerToRef operand ty)
  | upcast (operand : Value) (ty : Ty) :
      WellFormed operand → WellFormed (.upcast operand ty)
  | unconditionalCheckedCast (kind : CheckedCastKind) (operand : Value)
      (ty : Ty) :
      WellFormed operand → WellFormed (.unconditionalCheckedCast kind operand ty)
  | other (opcode : Nat) (ops : List Value) (ty : Ty) :
      (∀ v ∈ ops, WellFormed v) → WellFormed (.other opcode ops ty)

/-- Modelled from the spec: in a well-formed IR the condition of a
`cond_br` terminator has type `Builtin.Int1` (the type
`visitIntegerLiteralInst` replaces a literal of that type with). -/
def WellFormedCFG (cfg : CFG) : Prop :=
  ∀ b cond trueBB falseBB, cfg.term b = .condBranch cond trueBB falseBB →
    cond.typeOf = Ty.builtinInt 1

/-- Transcribed from the spec's rule catalogue (§4.2): the precondition
under which the rule for each handled instruction kind fires, and `False`
for every instruction kind without a rule.  This is a spec-side
definition, stated in the spec's words so it can be compared with the
code's behaviour: rule 3 (`StructConstruct`) is the spec's per-index
contract (every operand `i` extracts field `i` of one common source);
rule 4 / rule 7 / rule 8 require the outer conversion's result type to
equal the original operand's type ("types line up as exact inverses");
rule 6 (`RefToRawPtr`) has, in the spec's words, no separate type check. -/
def specRulePrecondition (cfg : CFG) (parent : Nat) : Value → Prop
  | .tupleExtract operand _ _ => ∃ es t, operand = Value.tuple es t
  | .structExtract operand fieldNo _ =>
      ∃ ops t, operand = Value.struct ops t ∧ fieldNo < ops.length
  | .struct operands ty =>
      operands ≠ [] ∧
      ∃ src, (∀ i (h : i < operands.length),
                ∃ exTy, operands.get ⟨i, h⟩ = Value.structExtract src i exTy) ∧
             ty = src.typeOf
  | .addressToPointer operand ty =>
      ∃ x t, operand = Value.pointerToAddress x t ∧ x.typeOf = ty
  | .pointerToAddress operand ty =>
      ∃ x t, operand = Value.addressToPointer x t ∧ x.typeOf = ty
  | .refToRawPointer operand _ =>
      ∃ x t, operand = Value.rawPointerToRef x t
  | .objectPointerToRef operand ty =>
      ∃ x t, operand = Value.refToObjectPointer x t ∧ x.typeOf = ty
  | .unconditionalCheckedCast kind operand ty =>
      kind = CheckedCastKind.downcast ∧
      ∃ y t, operand = Value.upcast y t ∧ ty = y.typeOf
  | .integerLiteral value ty =>
      ty = Ty.builtinInt 1 ∧
      ∃ p cond trueBB falseBB,
        getSinglePredecessor cfg parent = some p ∧
        cfg.term p = TermInst.condBranch cond trueBB falseBB ∧
        parent = (if value ≠ 0 then trueBB else falseBB)
  | .enum element operand ty =>
      operand = none ∧
      ∃ p subject caseTarget,
        getSinglePredecessor cfg parent = some p ∧
        cfg.term p = TermInst.switchEnum subject caseTarget ∧
        ty = subject.typeOf ∧ parent = caseTarget element
  | _ => False

/-- A control-flow graph with no edges and no interesting terminators. -/
def cfgEmpty : CFG :=
  { preds := fun _ => [], term := fun _ => .otherTerm 0 }

/-- A graph in which block 0 ends in
`cond_br (arg 7 : Builtin.Int1), block 1, block 2`, and blocks 1 and 2
have block 0 as their only predecessor. -/
def cfgCond : CFG :=
  { preds := fun b => if b = 1 ∨ b = 2 then [0] else [],
    term := fun b =>
      if b = 0 then .condBranch (Value.arg 7 (Ty.builtinInt 1)) 1 2
      else .otherTerm 0 }

/-- A graph in which block 0 ends in
`switch_enum (arg 8 : named 4)` sending tag 0 to block 1 and every other
tag to block 2, and block 1 has block 0 as its only predecessor. -/
def cfgSwitch : CFG :=
  { preds := fun b => if b = 1 then [0] else [],
    term := fun b =>
      if b = 0 then
        .switchEnum (Value.arg 8 (Ty.named 4)) (fun tag => if tag = 0 then 1 else 2)
      else .otherTerm 0 }

mutual

/-- `Value.beq` is reflexive. -/
theorem Value.beq_refl : ∀ a : Value, Value.beq a a = true
  | .arg i t => by simp [Value.beq]
  | .tuple es t => by simp [Value.beq, Value.beqList_refl es]
  | .struct es t => by simp [Value.beq, Value.beqList_refl es]
  | .enum e o t => by simp [Value.beq, Value.beqOpt_refl o]
  | .tupleExtract a n t => by simp [Value.beq, Value.beq_refl a]
  | .structExtract a n t => by simp [Value.beq, Value.beq_refl a]
  | .integerLiteral v t => by simp [Value.beq]
  | .addressToPointer a t => by simp [Value.beq, Value.beq_refl a]
  | .pointerToAddress a t => by simp [Value.beq, Value.beq_refl a]
  | .refToRawPointer a t => by simp [Value.beq, Value.beq_refl a]
  | .rawPointerToRef a t => by simp [Value.beq, Value.beq_refl a]
  | .refToObjectPointer a t => by simp [Value.beq, Value.beq_refl a]
  | .objectPointerToRef a t => by simp [Value.beq, Value.beq_refl a]
  | .upcast a t => by simp [Value.beq, Value.beq_refl a]
  | .unconditionalCheckedCast k a t => by simp [Value.beq, Value.beq_refl a]
  | .other o es t => by simp [Value.beq, Value.beqList_refl es]

/-- `Value.beqList` is reflexive. -/
theorem Value.beqList_refl : ∀ as : List Value, Value.beqList as as = true
  | [] => by simp [Value.beqList]
  | a :: as => by simp [Value.beqList, Value.beq_refl a, Value.beqList_refl as]

/-- `Value.beqOpt` is reflexive. -/
theorem Value.beqOpt_refl : ∀ o : Option Value, Value.beqOpt o o = true
  | none => by simp [Value.beqOpt]
  | some a => by simp [Value.beqOpt, Value.beq_refl a]

end

/-- Inversion for the `dyn_cast<StructExtractInst>` embedding. -/
theorem Value.asStructExtract_eq_some {v s : Value} {f : Nat} :
    v.asStructExtract = some (s, f) ↔ ∃ t, v = Value.structExtract s f t := by
  cases v <;> simp [Value.asStructExtract]

/-- `getSinglePredecessor` answers exactly on one-element predecessor
lists. -/
theorem getSinglePredecessor_eq_some {cfg : CFG} {b p : Nat} :
    getSinglePredecessor cfg b = some p ↔ cfg.preds b = [p] := by
  unfold getSinglePredecessor
  cases h : cfg.preds b with
  | nil => simp
  | cons a as =>
    cases as with
    | nil => simp
    | cons a2 as2 => simp

/-- Characterization of `visitStructInst`: because the validation loop
re-reads operand 0 on every iteration, the rule fires exactly on a
single-operand construct whose operand extracts field 0 of a source of
the constructed type. -/
theorem visitStructInst_eq_some {operands : List Value} {ty : Ty} {v : Value} :
    visitStructInst operands ty = some v ↔
      ∃ exTy, operands = [Value.structExtract v 0 exTy] ∧ ty = v.typeOf := by
  cases operands with
  | nil => simp [visitStructInst]
  | cons op0 rest =>
    cases hcast : op0.asStructExtract with
    | none =>
      have hnone : visitStructInst (op0 :: rest) ty = none := by
        simp [visitStructInst, hcast]
      rw [hnone]
      simp only [false_iff, reduceCtorEq]
      rintro ⟨exTy, heq, -⟩
      injection heq with h1 h2
      subst h1
      simp [Value.asStructExtract] at hcast
    | some res =>
      obtain ⟨src, f⟩ := res
      obtain ⟨ety, rfl⟩ := Value.asStructExtract_eq_some.mp hcast
      simp only [visitStructInst, Value.asStructExtract, Value.beq_refl,
        Bool.true_and, List.length_cons]
      constructor
      · intro h
        split_ifs at h with hty hall
        · have hv : src = v := by
            simpa using h
          subst hv
          have hallspec : ∀ i < rest.length + 1, f = i := by
            intro i hi
            have := List.all_eq_true.mp hall i (List.mem_range.mpr hi)
            simpa using this
          have h0 : f = 0 := hallspec 0 (by omega)
          have hrest : rest = [] := by
            cases rest with
            | nil => rfl
            | cons r rs =>
              have h1 : f = 1 := hallspec 1 (by simp)
              omega
          subst h0
          subst hrest
          exact ⟨ety, rfl, hty⟩
      · rintro ⟨exTy, heq, htyv⟩
        injection heq with h1 h2
        cases h1
        subst h2
        simp [htyv]

/-- Characterization of `visitIntegerLiteralInst`: it returns a value
exactly when the literal has type `Builtin.Int1`, the parent block has a
single predecessor ending in `cond_br`, and the parent is the target the
literal's boolean value selects; the returned value is the condition. -/
theorem visitIntegerLiteralInst_eq_some {cfg : CFG} {parent value : Nat}
    {ty : Ty} {cond : Value} :
    visitIntegerLiteralInst cfg parent value ty = some cond ↔
      ty = Ty.builtinInt 1 ∧ ∃ p trueBB falseBB,
        getSinglePredecessor cfg parent = some p ∧
        cfg.term p = TermInst.condBranch cond trueBB falseBB ∧
        parent = (if value ≠ 0 then trueBB else falseBB) := by
  constructor
  · intro h
    unfold visitIntegerLiteralInst at h
    by_cases hty : ty = Ty.builtinInt 1
    case neg => rw [if_neg hty] at h; exact absurd h (by simp)
    rw [if_pos hty] at h
    cases hp : getSinglePredecessor cfg parent with
    | none => simp [hp] at h
    | some p =>
      simp only [hp] at h
      cases ht : cfg.term p with
      | condBranch c tBB fBB =>
        simp only [ht] at h
        by_cases hpar : parent = (if value ≠ 0 then tBB else fBB)
        · rw [if_pos hpar] at h
          obtain rfl : c = cond := by simpa using h
          exact ⟨hty, p, tBB, fBB, rfl, ht, hpar⟩
        · rw [if_neg hpar] at h
          exact absurd h (by simp)
      | switchEnum s ct => simp [ht] at h
      | otherTerm i => simp [ht] at h
  · rintro ⟨hty, p, tBB, fBB, hp, ht, hpar⟩
    unfold visitIntegerLiteralInst
    rw [if_pos hty]
    simp only [hp, ht]
    rw [if_pos hpar]

/-- Characterization of `visitEnumInst`: it returns a value exactly when
the construct is payload-free, the parent block has a single predecessor
ending in `switch_enum`, the constructed type equals the subject's type,
and the parent is the case destination of the constructed tag; the
returned value is the subject. -/
theorem visitEnumInst_eq_some {cfg : CFG} {parent : Nat} {element : Tag}
    {operand : Option Value} {ty : Ty} {v : Value} :
    visitEnumInst cfg parent element operand ty = some v ↔
      operand = none ∧ ∃ p caseTarget,
        getSinglePredecessor cfg parent = some p ∧
        cfg.term p = TermInst.switchEnum v caseTarget ∧
        ty = v.typeOf ∧ parent = caseTarget element := by
  constructor
  · intro h
    unfold visitEnumInst at h
    by_cases hop : operand.isSome = true
    case pos => rw [if_pos hop] at h; exact absurd h (by simp)
    rw [if_neg hop] at h
    cases hp : getSinglePredecessor cfg parent with
    | none => simp [hp] at h
    | some p =>
      simp only [hp] at h
      cases ht : cfg.term p with
      | condBranch c tBB fBB => simp [ht] at h
      | switchEnum subject caseTarget =>
        simp only [ht] at h
        by_cases hty : ty = subject.typeOf
        case neg => rw [if_neg hty] at h; exact absurd h (by simp)
        rw [if_pos hty] at h
        by_cases hpar : parent = caseTarget element
        · rw [if_pos hpar] at h
          obtain rfl : subject = v := by simpa using h
          exact ⟨Option.not_isSome_iff_eq_none.mp hop, p, caseTarget, rfl,
            ht, hty, hpar⟩
        · rw [if_neg hpar] at h
          exact absurd h (by simp)
      | otherTerm i => simp [ht] at h
  · rintro ⟨rfl, p, caseTarget, hp, ht, hty, hpar⟩
    unfold visitEnumInst
    rw [if_neg (by simp)]
    simp only [hp, ht]
    rw [if_pos hty, if_pos hpar]

/-- C8: for every `TupleExtract` instruction whose source operand is a
`TupleConstruct` and whose index is within the element list, `simplify`
returns the element at that index. -/
theorem C8_tuple_extract_of_construct (cfg : CFG) (parent : Nat)
    (es : List Value) (t ty : Ty) (i : Nat) (h : i < es.length) :
    simplifyInstruction cfg parent (.tupleExtract (.tuple es t) i ty) =
      .ok (some (es.get ⟨i, h⟩)) := by
  simp [simplifyInstruction, visitTupleExtractInst, List.getElem?_eq_getElem h]

/-- C8 witness: `TupleExtract(TupleConstruct(a, b, c), 1)` simplifies to
`b`. -/
theorem C8_tuple_extract_of_construct_witness :
    simplifyInstruction cfgEmpty 0
      (.tupleExtract
        (.tuple [Value.arg 0 (Ty.named 0), Value.arg 1 (Ty.named 1),
          Value.arg 2 (Ty.named 2)] (Ty.named 3)) 1 (Ty.named 1)) =
      .ok (some (Value.arg 1 (Ty.named 1))) :=
  C8_tuple_extract_of_construct cfgEmpty 0
    [Value.arg 0 (Ty.named 0), Value.arg 1 (Ty.named 1), Value.arg 2 (Ty.named 2)]
    (Ty.named 3) (Ty.named 1) 1 (by decide)

/-- C6: a `Downcast` checked cast applied to an `Upcast` of `y` returns
`y` when the downcast's target type equals `y`'s type (the downcast's
operand type equals the upcast's result type by construction in the
single-assignment embedding, which is the first conjunct the code
checks), and returns no simplification when the target type differs. -/
theorem C6_downcast_of_upcast (cfg : CFG) (parent : Nat) (y : Value)
    (upTy dcTy : Ty) :
    (dcTy = y.typeOf →
      simplifyInstruction cfg parent
        (.unconditionalCheckedCast .downcast (.upcast y upTy) dcTy) =
        .ok (some y)) ∧
    (dcTy ≠ y.typeOf →
      simplifyInstruction cfg parent
        (.unconditionalCheckedCast .downcast (.upcast y upTy) dcTy) =
        .ok none) := by
  constructor
  · intro h
    simp [simplifyInstruction, visitUnconditionalCheckedCastInst,
      Value.typeOf, h]
  · intro h
    simp [simplifyInstruction, visitUnconditionalCheckedCastInst, h]

/-- C6 witness: the round trip with matching target type returns the
original operand; with a differing target type there is no
simplification. -/
theorem C6_downcast_of_upcast_witness :
    simplifyInstruction cfgEmpty 0
      (.unconditionalCheckedCast .downcast
        (.upcast (Value.arg 0 (Ty.named 1)) (Ty.named 2)) (Ty.named 1)) =
      .ok (some (Value.arg 0 (Ty.named 1))) ∧
    simplifyInstruction cfgEmpty 0
      (.unconditionalCheckedCast .downcast
        (.upcast (Value.arg 0 (Ty.named 1)) (Ty.named 2)) (Ty.named 9)) =
      .ok none :=
  ⟨(C6_downcast_of_upcast cfgEmpty 0 (Value.arg 0 (Ty.named 1)) (Ty.named 2)
      (Ty.named 1)).1 rfl,
   (C6_downcast_of_upcast cfgEmpty 0 (Value.arg 0 (Ty.named 1)) (Ty.named 2)
      (Ty.named 9)).2 (by decide)⟩

/-- C2 counterexample: an `AddrToPtr` applied to a `PtrToAddr` of an
operand whose type differs from the outer conversion's result type — a
composed pair whose types do not line up as inverses — still simplifies
to the operand instead of yielding no simplification, because the type
comparison in `visitAddressToPointerInst` is between the intermediate
value's type and itself and therefore always succeeds. -/
theorem C2_mismatched_addr_roundtrip_counterexample :
    (Value.arg 0 (Ty.named 1)).typeOf ≠ Ty.named 3 ∧
    simplifyInstruction cfgEmpty 0
      (.addressToPointer
        (.pointerToAddress (Value.arg 0 (Ty.named 1)) (Ty.named 2))
        (Ty.named 3)) =
      .ok (some (Value.arg 0 (Ty.named 1))) := by
  exact ⟨by decide, rfl⟩

/-- C2 (amended): composing each dual conversion pair simplifies to the
original operand `x` under the type condition the code actually checks.
For `PtrToAddr ∘ AddrToPtr`, `OpaquePtrToRef ∘ RefToOpaquePtr` and
`Downcast ∘ Upcast` the code fires exactly when `x`'s type equals the
outer conversion's result type and yields no simplification otherwise;
for `AddrToPtr ∘ PtrToAddr` the checked comparison is between the
intermediate value's type and itself, and for `RefToRawPtr ∘ RawPtrToRef`
there is no type check at all, so those two fire unconditionally whenever
the operand pattern matches. -/
theorem C2_inverse_roundtrips_amended (cfg : CFG) (parent : Nat)
    (x : Value) (t1 t2 : Ty) :
    (simplifyInstruction cfg parent
        (.addressToPointer (.pointerToAddress x t1) t2) = .ok (some x)) ∧
    (x.typeOf = t2 →
      simplifyInstruction cfg parent
        (.pointerToAddress (.addressToPointer x t1) t2) = .ok (some x)) ∧
    (x.typeOf ≠ t2 →
      simplifyInstruction cfg parent
        (.pointerToAddress (.addressToPointer x t1) t2) = .ok none) ∧
    (simplifyInstruction cfg parent
        (.refToRawPointer (.rawPointerToRef x t1) t2) = .ok (some x)) ∧
    (x.typeOf = t2 →
      simplifyInstruction cfg parent
        (.objectPointerToRef (.refToObjectPointer x t1) t2) = .ok (some x)) ∧
    (x.typeOf ≠ t2 →
      simplifyInstruction cfg parent
        (.objectPointerToRef (.refToObjectPointer x t1) t2) = .ok none) ∧
    (t2 = x.typeOf →
      simplifyInstruction cfg parent
        (.unconditionalCheckedCast .downcast (.upcast x t1) t2) =
        .ok (some x)) ∧
    (t2 ≠ x.typeOf →
      simplifyInstruction cfg parent
        (.unconditionalCheckedCast .downcast (.upcast x t1) t2) = .ok none) := by
  refine ⟨?_, ?_, ?_, ?_, ?_, ?_, ?_, ?_⟩
  · simp [simplifyInstruction, visitAddressToPointerInst, Value.typeOf]
  · intro h
    simp [simplifyInstruction, visitPointerToAddressInst, h]
  · intro h
    simp [simplifyInstruction, visitPointerToAddressInst, h]
  · simp [simplifyInstruction, visitRefToRawPointerInst]
  · intro h
    simp [simplifyInstruction, visitObjectPointerToRefInst, h]
  · intro h
    simp [simplifyInstruction, visitObjectPointerToRefInst, h]
  · intro h
    simp [simplifyInstruction, visitUnconditionalCheckedCastInst,
      Value.typeOf, h]
  · intro h
    simp [simplifyInstruction, visitUnconditionalCheckedCastInst, h]

/-- C2 amended witness: each pair evaluated at one matching and, where
the code checks anything, one mismatching concrete composition. -/
theorem C2_inverse_roundtrips_amended_witness :
    simplifyInstruction cfgEmpty 0
      (.addressToPointer
        (.pointerToAddress (Value.arg 0 Ty.rawPointer) (Ty.named 1))
        Ty.rawPointer) = .ok (some (Value.arg 0 Ty.rawPointer)) ∧
    simplifyInstruction cfgEmpty 0
      (.pointerToAddress
        (.addressToPointer (Value.arg 0 Ty.rawPointer) (Ty.named 1))
        Ty.rawPointer) = .ok (some (Value.arg 0 Ty.rawPointer)) ∧
    simplifyInstruction cfgEmpty 0
      (.pointerToAddress
        (.addressToPointer (Value.arg 1 (Ty.named 4)) (Ty.named 1))
        (Ty.named 6)) = .ok none ∧
    simplifyInstruction cfgEmpty 0
      (.refToRawPointer
        (.rawPointerToRef (Value.arg 0 Ty.rawPointer) (Ty.named 2))
        Ty.rawPointer) = .ok (some (Value.arg 0 Ty.rawPointer)) ∧
    simplifyInstruction cfgEmpty 0
      (.objectPointerToRef
        (.refToObjectPointer (Value.arg 0 Ty.rawPointer) (Ty.named 3))
        Ty.rawPointer) = .ok (some (Value.arg 0 Ty.rawPointer)) ∧
    simplifyInstruction cfgEmpty 0
      (.objectPointerToRef
        (.refToObjectPointer (Value.arg 1 (Ty.named 4)) (Ty.named 3))
        (Ty.named 6)) = .ok none ∧
    simplifyInstruction cfgEmpty 0
      (.unconditionalCheckedCast .downcast
        (.upcast (Value.arg 0 Ty.rawPointer) (Ty.named 5))
        Ty.rawPointer) = .ok (some (Value.arg 0 Ty.rawPointer)) ∧
    simplifyInstruction cfgEmpty 0
      (.unconditionalCheckedCast .downcast
        (.upcast (Value.arg 1 (Ty.named 4)) (Ty.named 5))
        (Ty.named 6)) = .ok none := by
  obtain ⟨hA1, hA2, -, hA4, hA5, -, hA7, -⟩ :=
    C2_inverse_roundtrips_amended cfgEmpty 0 (Value.arg 0 Ty.rawPointer)
      (Ty.named 1) Ty.rawPointer
  obtain ⟨-, -, hB3, -, -, hB6, -, hB8⟩ :=
    C2_inverse_roundtrips_amended cfgEmpty 0 (Value.arg 1 (Ty.named 4))
      (Ty.named 1) (Ty.named 6)
  refine ⟨hA1, hA2 rfl, hB3 (by decide), hA4, ?_, hB6 (by decide), hA7 rfl,
    hB8 (by decide)⟩
  have := C2_inverse_roundtrips_amended cfgEmpty 0 (Value.arg 0 Ty.rawPointer)
      (Ty.named 3) Ty.rawPointer
  exact this.2.2.2.2.1 rfl

/-- C3: the `StructConstruct` rule as implemented cannot fire on a
construct with two or more operands — the validation loop re-reads
operand 0 on every iteration, so its per-index field check can hold for
at most one index — and whenever it does fire the construct has exactly
one operand, a `FieldExtract` of field 0 whose source has the
constructed type. -/
theorem C3_struct_rule_fires_only_on_single_operand (cfg : CFG)
    (parent : Nat) (operands : List Value) (ty : Ty) :
    (2 ≤ operands.length →
      simplifyInstruction cfg parent (.struct operands ty) = .ok none) ∧
    (∀ v, simplifyInstruction cfg parent (.struct operands ty) = .ok (some v) →
      ∃ exTy, operands = [Value.structExtract v 0 exTy] ∧ ty = v.typeOf) := by
  have hdisp : simplifyInstruction cfg parent (.struct operands ty) =
      .ok (visitStructInst operands ty) := rfl
  constructor
  · intro hlen
    rw [hdisp]
    cases hv : visitStructInst operands ty with
    | none => rfl
    | some v =>
      obtain ⟨exTy, heq, -⟩ := visitStructInst_eq_some.mp hv
      rw [heq] at hlen
      simp at hlen
  · intro v hv
    rw [hdisp] at hv
    have hv2 : visitStructInst operands ty = some v := by
      injection hv
    exact visitStructInst_eq_some.mp hv2

/-- C3 witness: a two-operand per-index reconstruction yields no
simplification, and on a firing single-operand input the characterization
holds. -/
theorem C3_struct_rule_fires_only_on_single_operand_witness :
    simplifyInstruction cfgEmpty 0
      (.struct [Value.structExtract (Value.arg 0 (Ty.named 0)) 0 (Ty.named 1),
        Value.structExtract (Value.arg 0 (Ty.named 0)) 1 (Ty.named 2)]
        (Ty.named 0)) = .ok none ∧
    ∃ exTy,
      [Value.structExtract (Value.arg 0 (Ty.named 0)) 0 (Ty.named 1)] =
        [Value.structExtract (Value.arg 0 (Ty.named 0)) 0 exTy] ∧
      Ty.named 0 = (Value.arg 0 (Ty.named 0)).typeOf :=
  ⟨(C3_struct_rule_fires_only_on_single_operand cfgEmpty 0
      [Value.structExtract (Value.arg 0 (Ty.named 0)) 0 (Ty.named 1),
        Value.structExtract (Value.arg 0 (Ty.named 0)) 1 (Ty.named 2)]
      (Ty.named 0)).1 (by decide),
   (C3_struct_rule_fires_only_on_single_operand cfgEmpty 0
      [Value.structExtract (Value.arg 0 (Ty.named 0)) 0 (Ty.named 1)]
      (Ty.named 0)).2 (Value.arg 0 (Ty.named 0))
     (by simp [simplifyInstruction, visitStructInst, Value.asStructExtract,
       Value.typeOf, Value.beq, List.range, List.range.loop])⟩

/-- C1 (code bug): at the spec's own positive example — a two-operand
`StructConstruct` whose operand at each position `i` is a `FieldExtract`
of field `i` of one common source whose type equals the constructed
type, so `specRulePrecondition` holds — the code returns no
simplification instead of the common source: the validation loop reads
`SI->getOperand(0)` on every iteration, so the per-position check
`Ex->getFieldNo() != i` fails at `i = 1`, contradicting the function's
own comments ("Check that all of the operands are extracts of the
correct kind ... the order of the field must be identical to the
construction order"). -/
theorem C1_per_index_reconstruction_unimplemented :
    specRulePrecondition cfgEmpty 0
      (.struct [Value.structExtract (Value.arg 0 (Ty.named 0)) 0 (Ty.named 1),
        Value.structExtract (Value.arg 0 (Ty.named 0)) 1 (Ty.named 2)]
        (Ty.named 0)) ∧
    simplifyInstruction cfgEmpty 0
      (.struct [Value.structExtract (Value.arg 0 (Ty.named 0)) 0 (Ty.named 1),
        Value.structExtract (Value.arg 0 (Ty.named 0)) 1 (Ty.named 2)]
        (Ty.named 0)) = .ok none := by
  constructor
  · refine ⟨by simp, Value.arg 0 (Ty.named 0), ?_, rfl⟩
    intro i hi
    simp at hi
    interval_cases i
    · exact ⟨Ty.named 1, rfl⟩
    · exact ⟨Ty.named 2, rfl⟩
  · simp [simplifyInstruction, visitStructInst, Value.asStructExtract,
      Value.typeOf, Value.beq, List.range, List.range.loop]

/-- C4: a `Builtin.Int1` literal with value `b` in a block whose single
predecessor ends in `cond_br cond, T, F` simplifies to `cond` when the
block is `T` for a true literal or `F` for a false one; a true literal
in a block reached only as the false target does not simplify. -/
theorem C4_int1_literal_from_cond_branch (cfg : CFG) (parent p : Nat)
    (cond : Value) (trueBB falseBB : Nat) (value : Nat)
    (hp : cfg.preds parent = [p])
    (ht : cfg.term p = TermInst.condBranch cond trueBB falseBB) :
    (parent = (if value ≠ 0 then trueBB else falseBB) →
      simplifyInstruction cfg parent (.integerLiteral value (Ty.builtinInt 1)) =
        .ok (some cond)) ∧
    (value ≠ 0 → parent = falseBB → parent ≠ trueBB →
      simplifyInstruction cfg parent (.integerLiteral value (Ty.builtinInt 1)) =
        .ok none) := by
  have hsp : getSinglePredecessor cfg parent = some p :=
    getSinglePredecessor_eq_some.mpr hp
  have hdisp :
      simplifyInstruction cfg parent (.integerLiteral value (Ty.builtinInt 1)) =
        .ok (visitIntegerLiteralInst cfg parent value (Ty.builtinInt 1)) := rfl
  constructor
  · intro hpar
    rw [hdisp, visitIntegerLiteralInst_eq_some.mpr
      ⟨rfl, p, trueBB, falseBB, hsp, ht, hpar⟩]
  · intro hv hpF hpT
    rw [hdisp]
    cases hcase : visitIntegerLiteralInst cfg parent value (Ty.builtinInt 1) with
    | none => rfl
    | some c =>
      obtain ⟨-, p2, tBB, fBB, hp2, ht2, hpar2⟩ :=
        visitIntegerLiteralInst_eq_some.mp hcase
      rw [hsp] at hp2
      have hpp : p = p2 := by injection hp2
      subst hpp
      rw [ht] at ht2
      injection ht2 with h1 h2 h3
      subst h2
      rw [if_pos hv] at hpar2
      exact absurd hpar2 hpT

/-- C4 witness: in `cfgCond`, a true `Int1` literal in the true target
block 1 simplifies to the branch condition, and in the false target
block 2 it does not simplify. -/
theorem C4_int1_literal_from_cond_branch_witness :
    simplifyInstruction cfgCond 1 (.integerLiteral 1 (Ty.builtinInt 1)) =
      .ok (some (Value.arg 7 (Ty.builtinInt 1))) ∧
    simplifyInstruction cfgCond 2 (.integerLiteral 1 (Ty.builtinInt 1)) =
      .ok none :=
  ⟨(C4_int1_literal_from_cond_branch cfgCond 1 0
      (Value.arg 7 (Ty.builtinInt 1)) 1 2 1 rfl rfl).1 (by decide),
   (C4_int1_literal_from_cond_branch cfgCond 2 0
      (Value.arg 7 (Ty.builtinInt 1)) 1 2 1 rfl rfl).2 (by decide) rfl
     (by decide)⟩

/-- C5: a payload-free `enum` of a tag simplifies to the subject of its
single predecessor's `switch_enum` exactly when the constructed type
equals the subject's type and the block is that tag's case destination;
when any condition fails — in particular when the construct carries a
payload — there is no simplification. -/
theorem C5_enum_from_switch_enum (cfg : CFG) (parent : Nat) (tag : Tag)
    (payload : Option Value) (ty : Ty) :
    (∀ v, simplifyInstruction cfg parent (.enum tag payload ty) =
        .ok (some v) ↔
      (payload = none ∧ ∃ p caseTarget,
        cfg.preds parent = [p] ∧
        cfg.term p = TermInst.switchEnum v caseTarget ∧
        ty = v.typeOf ∧ parent = caseTarget tag)) ∧
    ((∀ v p caseTarget, payload = none → cfg.preds parent = [p] →
        cfg.term p = TermInst.switchEnum v caseTarget → ty = v.typeOf →
        parent = caseTarget tag → False) →
      simplifyInstruction cfg parent (.enum tag payload ty) = .ok none) := by
  have hdisp : simplifyInstruction cfg parent (.enum tag payload ty) =
      .ok (visitEnumInst cfg parent tag payload ty) := rfl
  constructor
  · intro v
    rw [hdisp]
    constructor
    · intro h
      have h2 : visitEnumInst cfg parent tag payload ty = some v := by
        injection h
      obtain ⟨hn, p, ct, hp, ht, hty, hpar⟩ := visitEnumInst_eq_some.mp h2
      exact ⟨hn, p, ct, getSinglePredecessor_eq_some.mp hp, ht, hty, hpar⟩
    · rintro ⟨hn, p, ct, hp, ht, hty, hpar⟩
      rw [visitEnumInst_eq_some.mpr
        ⟨hn, p, ct, getSinglePredecessor_eq_some.mpr hp, ht, hty, hpar⟩]
  · intro hfail
    rw [hdisp]
    cases hcase : visitEnumInst cfg parent tag payload ty with
    | none => rfl
    | some v =>
      obtain ⟨hn, p, ct, hp, ht, hty, hpar⟩ := visitEnumInst_eq_some.mp hcase
      exact (hfail v p ct hn (getSinglePredecessor_eq_some.mp hp) ht hty
        hpar).elim

/-- C5 witness: in `cfgSwitch`, the payload-free `enum` of tag 0 in the
tag-0 case destination simplifies to the switched-on subject, and the
same construct with a payload does not simplify. -/
theorem C5_enum_from_switch_enum_witness :
    simplifyInstruction cfgSwitch 1 (.enum 0 none (Ty.named 4)) =
      .ok (some (Value.arg 8 (Ty.named 4))) ∧
    simplifyInstruction cfgSwitch 1
      (.enum 0 (some (Value.arg 9 (Ty.named 7))) (Ty.named 4)) = .ok none :=
  ⟨((C5_enum_from_switch_enum cfgSwitch 1 0 none (Ty.named 4)).1
      (Value.arg 8 (Ty.named 4))).mpr
      ⟨rfl, 0, fun tag => if tag = 0 then 1 else 2, rfl, rfl, rfl, by decide⟩,
   (C5_enum_from_switch_enum cfgSwitch 1 0
      (some (Value.arg 9 (Ty.named 7))) (Ty.named 4)).2
     (fun v p ct h _ _ _ _ => Option.noConfusion h)⟩

/-- C10: under the modelled well-formed-IR precondition — every aggregate
extractor's index lies within its source aggregate's arity — the total
embedding never reaches the out-of-bounds error branch that stands for
the C++'s unguarded element accesses; an out-of-arity index is outside
this precondition, a contract violation of the caller. -/
theorem C10_no_out_of_bounds_under_wf (cfg : CFG) (parent : Nat)
    (I : Value) (hI : WellFormed I) (e : SimpErr) :
    simplifyInstruction cfg parent I ≠ .error e := by
  cases hI
  case tupleExtract operand fieldNo ty hop hbound =>
    cases operand
    case tuple es t =>
      obtain ⟨hlt, -⟩ := hbound es t rfl
      simp [simplifyInstruction, visitTupleExtractInst,
        List.getElem?_eq_getElem hlt]
    all_goals simp [simplifyInstruction, visitTupleExtractInst]
  case structExtract operand fieldNo ty hop hbound =>
    cases operand
    case struct ops t =>
      obtain ⟨hlt, -⟩ := hbound ops t rfl
      simp [simplifyInstruction, visitStructExtractInst,
        List.getElem?_eq_getElem hlt]
    all_goals simp [simplifyInstruction, visitStructExtractInst]
  all_goals simp [simplifyInstruction]

/-- C10 witness: a well-formed, in-bounds `TupleExtract` does not produce
the out-of-bounds error. -/
theorem C10_no_out_of_bounds_under_wf_witness :
    simplifyInstruction cfgEmpty 0
      (.tupleExtract (.tuple [Value.arg 0 (Ty.named 0)] (Ty.named 1)) 0
        (Ty.named 0)) ≠ .error SimpErr.outOfBounds :=
  C10_no_out_of_bounds_under_wf cfgEmpty 0 _
    (WellFormed.tupleExtract _ 0 (Ty.named 0)
      (WellFormed.tuple _ _ (by
        intro w hw
        simp at hw
        subst hw
        exact WellFormed.arg 0 (Ty.named 0)))
      (by
        intro es t heq
        injection heq with h1 h2
        subst h1
        exact ⟨by decide, rfl⟩))
    SimpErr.outOfBounds

/-- C9: on a well-formed instruction, whenever the spec's rule
precondition fails — in particular on every instruction kind without a
rule, for which the precondition is `False` — `simplifyInstruction`
returns the empty result `.ok none`, not an error. -/
theorem C9_failed_precondition_yields_none (cfg : CFG) (parent : Nat)
    (I : Value) (hI : WellFormed I)
    (hpre : ¬ specRulePrecondition cfg parent I) :
    simplifyInstruction cfg parent I = .ok none := by
  cases hI
  case arg id ty => rfl
  case tuple es ty hwf => rfl
  case struct ops ty hwf =>
    show Except.ok (visitStructInst ops ty) = Except.ok none
    cases hv : visitStructInst ops ty with
    | none => rfl
    | some v =>
      obtain ⟨exTy, rfl, hty⟩ := visitStructInst_eq_some.mp hv
      refine absurd ⟨by simp, v, ?_, hty⟩ hpre
      intro i hi
      have hi0 : i = 0 := Nat.lt_one_iff.mp (by simpa using hi)
      subst hi0
      exact ⟨exTy, rfl⟩
  case enum tag payload ty hwf =>
    show Except.ok (visitEnumInst cfg parent tag payload ty) = Except.ok none
    cases hv : visitEnumInst cfg parent tag payload ty with
    | none => rfl
    | some v =>
      obtain ⟨hn, p, ct, hp, ht, hty, hpar⟩ := visitEnumInst_eq_some.mp hv
      exact absurd ⟨hn, p, v, ct, hp, ht, hty, hpar⟩ hpre
  case tupleExtract operand fieldNo ty hop hbound =>
    cases operand
    case tuple es t => exact absurd ⟨es, t, rfl⟩ hpre
    all_goals rfl
  case structExtract operand fieldNo ty hop hbound =>
    cases operand
    case struct ops t =>
      obtain ⟨hlt, -⟩ := hbound ops t rfl
      exact absurd ⟨ops, t, rfl, hlt⟩ hpre
    all_goals rfl
  case integerLiteral value ty =>
    show Except.ok (visitIntegerLiteralInst cfg parent value ty) =
      Except.ok none
    cases hv : visitIntegerLiteralInst cfg parent value ty with
    | none => rfl
    | some c =>
      obtain ⟨hty, p, tBB, fBB, hp, ht, hpar⟩ :=
        visitIntegerLiteralInst_eq_some.mp hv
      exact absurd ⟨hty, p, c, tBB, fBB, hp, ht, hpar⟩ hpre
  case addressToPointer operand ty hop htyr =>
    cases operand
    case pointerToAddress x t =>
      cases hop
      case pointerToAddress hwx hxty =>
        exact absurd ⟨x, t, rfl, hxty.trans htyr.symm⟩ hpre
    all_goals rfl
  case pointerToAddress operand ty hop hopty =>
    cases operand
    case addressToPointer x t =>
      have hc : ¬ x.typeOf = ty := fun hc => hpre ⟨x, t, rfl, hc⟩
      simp [simplifyInstruction, visitPointerToAddressInst, hc]
    all_goals rfl
  case refToRawPointer operand ty hop htyr =>
    cases operand
    case rawPointerToRef x t => exact absurd ⟨x, t, rfl⟩ hpre
    all_goals rfl
  case rawPointerToRef operand ty hop hopty => rfl
  case refToObjectPointer operand ty hop htyr => rfl
  case objectPointerToRef operand ty hop hopty =>
    cases operand
    case refToObjectPointer x t =>
      have hc : ¬ x.typeOf = ty := fun hc => hpre ⟨x, t, rfl, hc⟩
      simp [simplifyInstruction, visitObjectPointerToRefInst, hc]
    all_goals rfl
  case upcast operand ty hop => rfl
  case unconditionalCheckedCast kind operand ty hop =>
    show Except.ok (visitUnconditionalCheckedCastInst kind operand ty) =
      Except.ok none
    cases kind with
    | otherCast k => simp [visitUnconditionalCheckedCastInst]
    | downcast =>
      cases operand
      case upcast x t =>
        have hc : ¬ ty = x.typeOf := fun hc => hpre ⟨rfl, x, t, rfl, hc⟩
        simp [visitUnconditionalCheckedCastInst, hc]
      all_goals simp [visitUnconditionalCheckedCastInst]
  case other opcode ops ty hwf => rfl

/-- C9 witness: a `TupleExtract` whose operand is not a tuple construct
is well-formed, fails the rule precondition, and yields the empty
result. -/
theorem C9_failed_precondition_yields_none_witness :
    simplifyInstruction cfgEmpty 0
      (.tupleExtract (Value.arg 3 (Ty.named 5)) 2 (Ty.named 6)) = .ok none :=
  C9_failed_precondition_yields_none cfgEmpty 0 _
    (WellFormed.tupleExtract _ 2 (Ty.named 6) (WellFormed.arg 3 (Ty.named 5))
      (fun es t h => absurd h (by simp)))
    (by simp [specRulePrecondition])

/-- C7: type soundness — for a well-formed instruction in a well-formed
graph, every value `simplifyInstruction` returns has the same type as the
instruction's own result. -/
theorem C7_type_soundness (cfg : CFG) (parent : Nat) (I v : Value)
    (hcfg : WellFormedCFG cfg) (hI : WellFormed I)
    (h : simplifyInstruction cfg parent I = .ok (some v)) :
    v.typeOf = I.typeOf := by
  cases hI
  case arg id ty => simp [simplifyInstruction] at h
  case tuple es ty hwf => simp [simplifyInstruction] at h
  case other opcode ops ty hwf => simp [simplifyInstruction] at h
  case upcast operand ty hop => simp [simplifyInstruction] at h
  case rawPointerToRef operand ty hop hopty => simp [simplifyInstruction] at h
  case refToObjectPointer operand ty hop htyr =>
    simp [simplifyInstruction] at h
  case struct ops ty hwf =>
    have h2 : visitStructInst ops ty = some v := by injection h
    obtain ⟨exTy, -, hty⟩ := visitStructInst_eq_some.mp h2
    exact hty.symm
  case enum tag payload ty hwf =>
    have h2 : visitEnumInst cfg parent tag payload ty = some v := by
      injection h
    obtain ⟨-, p, ct, -, -, hty, -⟩ := visitEnumInst_eq_some.mp h2
    exact hty.symm
  case integerLiteral value ty =>
    have h2 : visitIntegerLiteralInst cfg parent value ty = some v := by
      injection h
    obtain ⟨hty, p, tBB, fBB, -, ht, -⟩ :=
      visitIntegerLiteralInst_eq_some.mp h2
    have hcond := hcfg p v tBB fBB ht
    show v.typeOf = ty
    rw [hcond, hty]
  case tupleExtract operand fieldNo ty hop hbound =>
    cases operand
    case tuple es t =>
      obtain ⟨hlt, hty⟩ := hbound es t rfl
      have h2 : visitTupleExtractInst (Value.tuple es t) fieldNo =
          .ok (some v) := h
      rw [show visitTupleExtractInst (Value.tuple es t) fieldNo =
          .ok (some (es.get ⟨fieldNo, hlt⟩)) by
        simp [visitTupleExtractInst, List.getElem?_eq_getElem hlt]] at h2
      have h3 : es.get ⟨fieldNo, hlt⟩ = v := by simpa using h2
      subst h3
      exact hty.symm
    all_goals simp [simplifyInstruction, visitTupleExtractInst] at h
  case structExtract operand fieldNo ty hop hbound =>
    cases operand
    case struct ops t =>
      obtain ⟨hlt, hty⟩ := hbound ops t rfl
      have h2 : visitStructExtractInst (Value.struct ops t) fieldNo =
          .ok (some v) := h
      rw [show visitStructExtractInst (Value.struct ops t) fieldNo =
          .ok (some (ops.get ⟨fieldNo, hlt⟩)) by
        simp [visitStructExtractInst, List.getElem?_eq_getElem hlt]] at h2
      have h3 : ops.get ⟨fieldNo, hlt⟩ = v := by simpa using h2
      subst h3
      exact hty.symm
    all_goals simp [simplifyInstruction, visitStructExtractInst] at h
  case addressToPointer operand ty hop htyr =>
    cases operand
    case pointerToAddress x t =>
      have h2 : visitAddressToPointerInst (Value.pointerToAddress x t) =
          some v := by injection h
      have hxv : x = v := by
        simpa [visitAddressToPointerInst, Value.typeOf] using h2
      subst hxv
      cases hop
      case pointerToAddress hwx hxty =>
        show x.typeOf = ty
        rw [hxty, htyr]
    all_goals simp [simplifyInstruction, visitAddressToPointerInst] at h
  case pointerToAddress operand ty hop hopty =>
    cases operand
    case addressToPointer x t =>
      have h2 : (if x.typeOf = ty then some x else none) = some v := by
        have h3 : visitPointerToAddressInst (Value.addressToPointer x t) ty =
            some v := by injection h
        simpa [visitPointerToAddressInst] using h3
      split_ifs at h2 with hc
      have hxv : x = v := by simpa using h2
      subst hxv
      exact hc
    all_goals simp [simplifyInstruction, visitPointerToAddressInst] at h
  case refToRawPointer operand ty hop htyr =>
    cases operand
    case rawPointerToRef x t =>
      have h2 : visitRefToRawPointerInst (Value.rawPointerToRef x t) =
          some v := by injection h
      have hxv : x = v := by simpa [visitRefToRawPointerInst] using h2
      subst hxv
      cases hop
      case rawPointerToRef hwx hxty =>
        show x.typeOf = ty
        rw [hxty, htyr]
    all_goals simp [simplifyInstruction, visitRefToRawPointerInst] at h
  case objectPointerToRef operand ty hop hopty =>
    cases operand
    case refToObjectPointer x t =>
      have h2 : (if x.typeOf = ty then some x else none) = some v := by
        have h3 : visitObjectPointerToRefInst (Value.refToObjectPointer x t)
            ty = some v := by injection h
        simpa [visitObjectPointerToRefInst] using h3
      split_ifs at h2 with hc
      have hxv : x = v := by simpa using h2
      subst hxv
      exact hc
    all_goals simp [simplifyInstruction, visitObjectPointerToRefInst] at h
  case unconditionalCheckedCast kind operand ty hop =>
    have h2 : visitUnconditionalCheckedCastInst kind operand ty = some v := by
      injection h
    cases kind with
    | otherCast k => simp [visitUnconditionalCheckedCastInst] at h2
    | downcast =>
      cases operand
      case upcast x t =>
        rw [show visitUnconditionalCheckedCastInst CheckedCastKind.downcast
            (Value.upcast x t) ty =
            (if (Value.upcast x t).typeOf = t ∧ ty = x.typeOf then some x
             else none) from rfl] at h2
        split_ifs at h2 with hc
        obtain ⟨-, hty⟩ := hc
        have hxv : x = v := by simpa using h2
        subst hxv
        show x.typeOf = ty
        exact hty.symm
      all_goals simp [visitUnconditionalCheckedCastInst] at h2

/-- C7 witness: at a concrete well-formed `TupleExtract` the returned
element's type equals the instruction's result type. -/
theorem C7_type_soundness_witness :
    (Value.arg 1 (Ty.named 1)).typeOf =
      (Value.tupleExtract
        (Value.tuple [Value.arg 1 (Ty.named 1)] (Ty.named 2)) 0
        (Ty.named 1)).typeOf :=
  C7_type_soundness cfgEmpty 0 _ _
    (by
      intro b cond tBB fBB hterm
      simp [cfgEmpty] at hterm)
    (WellFormed.tupleExtract _ 0 (Ty.named 1)
      (WellFormed.tuple _ _ (by
        intro w hw
        simp at hw
        subst hw
        exact WellFormed.arg 1 (Ty.named 1)))
      (by
        intro es t heq
        injection heq with h1 h2
        subst h1
        exact ⟨by decide, rfl⟩))
    rfl
